import Mathlib

/-!
Shallow embedding of `assert.go` from `bhuvneshuchiha/assert`.

Package-level mutable globals (`flushes`, `assertData`, `writer`) become an
explicit `AssertState`.  Side effects (writes to `os.Stderr`, `slog` lines,
flush callbacks, `os.Exit`) become an `Event` trace.  `runAssert` may be
re-entered by a flush handler that itself asserts, so execution takes a fuel
parameter; running out of fuel is recorded as `Outcome.fuelOut` and witnesses
the unbounded recursion of the source.  Variadic `any` arguments are modelled
by their rendered strings, which is all the report formatting observes.
-/

namespace AssertPkg

/-- Model of the `AssertData` interface: an object able to produce its
human-readable summary via `Dump()`. -/
structure AssertData where
  Dump : String
deriving DecidableEq, Repr

/-- Model of an `AssertFlush` handler.  A `plain` handler only performs its
flush side effect (observed as an event); an `asserting` handler is one whose
`Flush()` itself triggers a failing assertion `Assert(false, msg)`. -/
inductive AssertFlush where
  | plain (id : Nat)
  | asserting (msg : String)
deriving DecidableEq, Repr

/-- A destination for written output: `os.Stderr` or some `io.Writer`. -/
inductive Sink where
  | stderr
  | custom (id : Nat)
deriving DecidableEq, Repr

/-- Observable side effects of the library. -/
inductive Event where
  | flushed (id : Nat)
  | write (dest : Sink) (line : String)
  | stackTrace (dest : Sink)
  | slogInfo (line : String)
  | slogError (line : String)
  | exited (code : Nat)
deriving DecidableEq, Repr

/-- How a call into `runAssert` ends: `os.Exit(code)`, a Go runtime panic
(index out of range), or fuel exhaustion (the model's marker for the
unbounded reentrant recursion of the source). -/
inductive Outcome where
  | exited (code : Nat)
  | panicked (reason : String)
  | fuelOut
deriving DecidableEq, Repr

/-- `reflect.Kind` of a wrapped value, restricted to what `NotNil` inspects. -/
inductive GoKind where
  | ptr
  | mapKind
  | sliceKind
  | chanKind
  | funcKind
  | otherKind
deriving DecidableEq, Repr

/-- A Go `any` (interface) value: either the nil interface, or a non-nil
interface wrapping a value of some kind; `isNil` records whether the wrapped
value is itself nil (`reflect.ValueOf(item).IsNil()`). -/
inductive GoAny where
  | nilInterface
  | wrapped (kind : GoKind) (isNil : Bool)
deriving DecidableEq, Repr

/-- The package-level mutable state of `assert.go`: the ordered `flushes`
list, the `assertData` map (modelled as an association list with unique
keys), and the `writer` variable set by `ToWriter`. -/
structure AssertState where
  flushes : List AssertFlush
  assertData : List (String × AssertData)
  writer : Option Sink
deriving DecidableEq, Repr

/-- Zero values of the globals at package init. -/
def initState : AssertState :=
  { flushes := [], assertData := [], writer := none }

/-- Go map assignment `m[k] = v`: replace the entry under `k` if present,
otherwise add one. -/
def mapInsert : List (String × AssertData) → String → AssertData → List (String × AssertData)
  | [], k, v => [(k, v)]
  | (k0, v0) :: rest, k, v =>
      if k0 = k then (k, v) :: rest else (k0, v0) :: mapInsert rest k v

/-- Go `delete(m, k)`: remove the entry under `k`; no-op when absent. -/
def mapDelete (m : List (String × AssertData)) (k : String) : List (String × AssertData) :=
  m.filter (fun kv => kv.1 ≠ k)

/-- Go map lookup `m[k]`. -/
def mapLookup : List (String × AssertData) → String → Option AssertData
  | [], _ => none
  | (k0, v0) :: rest, k => if k0 = k then some v0 else mapLookup rest k

/-- `AddAssertData(key, value)` from `assert.go`. -/
def AddAssertData (st : AssertState) (key : String) (value : AssertData) : AssertState :=
  { st with assertData := mapInsert st.assertData key value }

/-- `RemoveAssertData(key)` from `assert.go`. -/
def RemoveAssertData (st : AssertState) (key : String) : AssertState :=
  { st with assertData := mapDelete st.assertData key }

/-- `AddAssertFlush(flusher)` from `assert.go`. -/
def AddAssertFlush (st : AssertState) (flusher : AssertFlush) : AssertState :=
  { st with flushes := st.flushes ++ [flusher] }

/-- `ToWriter(w)` from `assert.go`: stores `w` in the package variable. -/
def ToWriter (st : AssertState) (w : Sink) : AssertState :=
  { st with writer := some w }

/-- The key/dump pairs appended by `runAssert`'s loop over `assertData`
(`for k, v := range assertData \x7b slogValues = append(slogValues, k, v.Dump()) \x7d`). -/
def registryPairs : List (String × AssertData) → List String
  | [] => []
  | (k, v) :: rest => k :: v.Dump :: registryPairs rest

/-- Rendering of `fmt.Fprintf(os.Stderr, "ARGS: %+v\n", args)`. -/
def renderArgs (args : List String) : String :=
  "ARGS: [" ++ String.intercalate " " args ++ "]"

/-- The report pair loop
`for i := 0; i < len(slogValues); i += 2 \x7b Fprintf("   %s=%v\n", slogValues[i], slogValues[i+1]) \x7d`.
Returns the printed lines, and `true` when the loop hits the out-of-range
access `slogValues[i+1]` on an odd-length list (a Go runtime panic). -/
def pairLines : List String → List String × Bool
  | [] => ([], false)
  | [_] => ([], true)
  | k :: v :: rest =>
      let r := pairLines rest
      (("   " ++ k ++ "=" ++ v) :: r.1, r.2)

/-- The flush loop `for _, f := range flushes \x7b f.Flush() \x7d`,
parameterised by `next`, the re-entry into `runAssert` (with one fuel unit
consumed).  A `plain` handler emits its flush event and the loop continues;
an `asserting` handler re-enters `runAssert` via `next`, whose outcome
(exit, panic or fuel exhaustion) ends the whole scenario, reported as
`some o`. -/
def runFlushesAux (next : String → List String → List Event × Outcome) :
    List AssertFlush → List Event × Option Outcome
  | [] => ([], none)
  | AssertFlush.plain i :: rest =>
      let r := runFlushesAux next rest
      (Event.flushed i :: r.1, r.2)
  | AssertFlush.asserting m :: _ =>
      let r := next m []
      (r.1, some r.2)

/-- `runAssert(msg, args...)` from `assert.go`: run every flush handler, echo
the raw args, build `slogValues` (header pairs, then caller args, then
registry pairs), print the `ASSERT` header, the pair lines and a stack trace
on `os.Stderr`, then `os.Exit(1)`.  There is no reentrancy latch: a flush
handler that asserts re-enters `runAssert` from the top. -/
def runAssert : Nat → AssertState → String → List String → List Event × Outcome
  | 0, _, _, _ => ([], Outcome.fuelOut)
  | n + 1, st, msg, args =>
    match runFlushesAux (fun m a => runAssert n st m a) st.flushes with
    | (evs, some o) => (evs, o)
    | (evs, none) =>
      let slogValues := ["msg", msg, "area", "Assert"] ++ args
      let evs1 := evs ++ [Event.write Sink.stderr (renderArgs args)]
      let slogValues2 := slogValues ++ registryPairs st.assertData
      let evs2 := evs1 ++ [Event.write Sink.stderr "ASSERT"]
      match pairLines slogValues2 with
      | (lines, true) =>
          (evs2 ++ lines.map (Event.write Sink.stderr),
           Outcome.panicked "index out of range")
      | (lines, false) =>
          (evs2 ++ lines.map (Event.write Sink.stderr) ++
             [Event.stackTrace Sink.stderr, Event.exited 1],
           Outcome.exited 1)

/-- The flush step as `runAssert` performs it at fuel `fuel + 1`. -/
def runFlushes (fuel : Nat) (st : AssertState) (l : List AssertFlush) :
    List Event × Option Outcome :=
  runFlushesAux (fun m a => runAssert fuel st m a) l

/-- `Assert(truth, msg, data...)` from `assert.go`.  `none` as second
component means the call returned normally to its caller. -/
def Assert (fuel : Nat) (st : AssertState) (truth : Bool) (msg : String)
    (data : List String) : List Event × Option Outcome :=
  if !truth then
    let r := runAssert fuel st msg data
    (r.1, some r.2)
  else ([], none)

/-- `Nil(item, msg, data...)` from `assert.go`: unconditionally logs
`slog.Info("Nil Check", ...)`, returns when the interface itself is nil,
otherwise logs an error and fails. -/
def Nil (fuel : Nat) (st : AssertState) (item : GoAny) (msg : String)
    (data : List String) : List Event × Option Outcome :=
  let ev0 := Event.slogInfo "Nil Check"
  if item = GoAny.nilInterface then ([ev0], none)
  else
    let r := runAssert fuel st msg data
    (ev0 :: Event.slogError "Nil#not nil encountered" :: r.1, some r.2)

/-- The condition of `NotNil`:
`item == nil || reflect.ValueOf(item).Kind() == reflect.Ptr && reflect.ValueOf(item).IsNil()`
(`&&` binds tighter than `||`; short-circuit means `reflect` is only consulted
on a non-nil interface). -/
def notNilViolation : GoAny → Bool
  | GoAny.nilInterface => true
  | GoAny.wrapped kind isNil => kind == GoKind.ptr && isNil

/-- `NotNil(item, msg, data...)` from `assert.go`. -/
def NotNil (fuel : Nat) (st : AssertState) (item : GoAny) (msg : String)
    (data : List String) : List Event × Option Outcome :=
  if notNilViolation item then
    let r := runAssert fuel st msg data
    (Event.slogError "NotNil#nil encountered" :: r.1, some r.2)
  else ([], none)

/-- `Never(msg, data...)` from `assert.go`. -/
def Never (fuel : Nat) (st : AssertState) (msg : String) (data : List String) :
    List Event × Option Outcome :=
  let r := runAssert fuel st msg data
  (r.1, some r.2)

/-- `NoError(err, msg, data...)` from `assert.go`: on a non-nil error the
pair `"error", err` is appended to the context data before failing.  The
error is modelled by its rendered description. -/
def NoError (fuel : Nat) (st : AssertState) (err : Option String) (msg : String)
    (data : List String) : List Event × Option Outcome :=
  match err with
  | some e =>
      let r := runAssert fuel st msg (data ++ ["error", e])
      (r.1, some r.2)
  | none => ([], none)

/-- Events that are flush-handler executions. -/
def isFlushEvent : Event → Bool
  | Event.flushed _ => true
  | _ => false

/-- Events that write something (report writes, stack trace, slog lines). -/
def isOutputEvent : Event → Bool
  | Event.write _ _ => true
  | Event.stackTrace _ => true
  | Event.slogInfo _ => true
  | Event.slogError _ => true
  | _ => false

/-- Events that invoke `os.Exit`. -/
def isExitEvent : Event → Bool
  | Event.exited _ => true
  | _ => false

/-- The destination a write-like event targets, if any. -/
def eventDest : Event → Option Sink
  | Event.write d _ => some d
  | Event.stackTrace d => some d
  | _ => none

/-- A flush-handler list is non-reentrant: no handler triggers an assertion
of its own. -/
def allPlain : List AssertFlush → Bool
  | [] => true
  | AssertFlush.plain _ :: rest => allPlain rest
  | AssertFlush.asserting _ :: _ => false

/-- The ids of the `plain` flush handlers, in registration order. -/
def plainIds : List AssertFlush → List Nat
  | [] => []
  | AssertFlush.plain i :: rest => i :: plainIds rest
  | AssertFlush.asserting _ :: rest => plainIds rest

/-- The diagnostic-registry snapshot the reporter consumes: each key with its
entry's dump string. -/
def snapshotPairs (m : List (String × AssertData)) : List (String × String) :=
  m.map (fun kv => (kv.1, kv.2.Dump))

/-- At most one entry per key in the registry. -/
def keysUnique (m : List (String × AssertData)) : Prop :=
  (m.map Prod.fst).Nodup

/-!  Helper lemmas about the flush loop and the report formatting. -/

theorem runFlushesAux_allPlain (next : String → List String → List Event × Outcome) :
    ∀ l : List AssertFlush, allPlain l = true →
      runFlushesAux next l = ((plainIds l).map Event.flushed, none)
  | [], _ => rfl
  | AssertFlush.plain i :: rest, h => by
      have ih := runFlushesAux_allPlain next rest (by simpa [allPlain] using h)
      simp [runFlushesAux, plainIds, ih]
  | AssertFlush.asserting m :: _, h => by simp [allPlain] at h

theorem runFlushesAux_congr {n1 n2 : String → List String → List Event × Outcome}
    (h : ∀ m a, n1 m a = n2 m a) : ∀ l, runFlushesAux n1 l = runFlushesAux n2 l
  | [] => rfl
  | AssertFlush.plain i :: rest => by
      simp [runFlushesAux, runFlushesAux_congr h rest]
  | AssertFlush.asserting m :: rest => by
      simp [runFlushesAux, h m []]

theorem pairLines_nopanic_of_even : ∀ l : List String, l.length % 2 = 0 →
    (pairLines l).2 = false
  | [], _ => rfl
  | [_], h => by simp at h
  | _ :: _ :: rest, h => by
      have ih := pairLines_nopanic_of_even rest (by simp at h; omega)
      simp [pairLines, ih]

theorem pairLines_append_of_even : ∀ l1 l2 : List String, l1.length % 2 = 0 →
    pairLines (l1 ++ l2) = ((pairLines l1).1 ++ (pairLines l2).1, (pairLines l2).2)
  | [], l2, _ => by simp [pairLines]
  | [_], _, h => by simp at h
  | a :: b :: rest, l2, h => by
      have ih := pairLines_append_of_even rest l2 (by simp at h; omega)
      simp [pairLines, ih]

theorem pairLines_mem : ∀ (l : List String) (s : String), s ∈ (pairLines l).1 →
    ∃ k v, s = "   " ++ k ++ "=" ++ v
  | [], _, hs => by simp [pairLines] at hs
  | [_], _, hs => by simp [pairLines] at hs
  | a :: b :: rest, s, hs => by
      rw [pairLines] at hs
      rcases List.mem_cons.1 hs with h | h
      · exact ⟨a, b, h⟩
      · exact pairLines_mem rest s h

theorem registryPairs_length : ∀ m : List (String × AssertData),
    (registryPairs m).length = 2 * m.length
  | [] => rfl
  | _ :: rest => by
      simp [registryPairs, registryPairs_length rest]
      omega

theorem slog_nopanic (st : AssertState) (msg : String) (args : List String)
    (he : args.length % 2 = 0) :
    (pairLines (["msg", msg, "area", "Assert"] ++ args ++ registryPairs st.assertData)).2 =
      false := by
  apply pairLines_nopanic_of_even
  simp [registryPairs_length]
  omega

/-- Closed form of one `runAssert` report at positive fuel when no registered
flush handler is itself asserting. -/
def reportTrace (st : AssertState) (msg : String) (args : List String) :
    List Event × Outcome :=
  let pl := pairLines (["msg", msg, "area", "Assert"] ++ args ++ registryPairs st.assertData)
  let base := (plainIds st.flushes).map Event.flushed ++
    [Event.write Sink.stderr (renderArgs args), Event.write Sink.stderr "ASSERT"] ++
    pl.1.map (Event.write Sink.stderr)
  if pl.2 then (base, Outcome.panicked "index out of range")
  else (base ++ [Event.stackTrace Sink.stderr, Event.exited 1], Outcome.exited 1)

theorem runAssert_succ_plain (n : Nat) (st : AssertState) (msg : String)
    (args : List String) (hp : allPlain st.flushes = true) :
    runAssert (n + 1) st msg args = reportTrace st msg args := by
  have hfl := runFlushesAux_allPlain (fun m a => runAssert n st m a) st.flushes hp
  rcases hpl : pairLines ("msg" :: msg :: "area" :: "Assert" :: (args ++ registryPairs st.assertData))
    with ⟨lines, b⟩
  cases b <;> simp [runAssert, hfl, reportTrace, hpl]

theorem pair_line_ne_header (k v : String) : "   " ++ k ++ "=" ++ v ≠ "ASSERT" := by
  intro h
  have hd := congrArg String.data h
  rw [String.data_append, String.data_append, String.data_append] at hd
  have h1 : "   ".data = [' ', ' ', ' '] := rfl
  have h2 : "ASSERT".data = ['A', 'S', 'S', 'E', 'R', 'T'] := rfl
  rw [h1, h2] at hd
  simp at hd

theorem renderArgs_ne_header (args : List String) : renderArgs args ≠ "ASSERT" := by
  intro h
  have hd := congrArg String.data (h ▸ rfl : renderArgs args = "ASSERT")
  rw [renderArgs, String.data_append, String.data_append] at hd
  have h1 : "ARGS: [".data = ['A', 'R', 'G', 'S', ':', ' ', '['] := rfl
  have h2 : "ASSERT".data = ['A', 'S', 'S', 'E', 'R', 'T'] := rfl
  rw [h1, h2] at hd
  simp at hd

theorem count_header_flushed (ids : List Nat) :
    (ids.map Event.flushed).count (Event.write Sink.stderr "ASSERT") = 0 := by
  rw [List.count_eq_zero]
  simp

theorem count_header_pairlines (l : List String) :
    ((pairLines l).1.map (Event.write Sink.stderr)).count
      (Event.write Sink.stderr "ASSERT") = 0 := by
  rw [List.count_eq_zero]
  intro hmem
  rw [List.mem_map] at hmem
  obtain ⟨s, hs, heq⟩ := hmem
  obtain ⟨k, v, rfl⟩ := pairLines_mem l s hs
  injection heq with hsink hline
  exact pair_line_ne_header k v hline

theorem count_exit_pairlines (l : List String) :
    ((pairLines l).1.map (Event.write Sink.stderr)).count (Event.exited 1) = 0 := by
  rw [List.count_eq_zero]
  simp

/-!  Helper lemmas about the registry map operations. -/

theorem mem_keys_mapInsert : ∀ {m : List (String × AssertData)} {k a : String}
    {e : AssertData}, a ∈ (mapInsert m k e).map Prod.fst → a = k ∨ a ∈ m.map Prod.fst := by
  intro m
  induction m with
  | nil => intro k a e h; simp [mapInsert] at h; exact Or.inl h
  | cons kv rest ih =>
      intro k a e h
      obtain ⟨k0, v0⟩ := kv
      by_cases hk : k0 = k
      · rw [mapInsert, if_pos hk] at h
        rcases List.mem_cons.1 h with h1 | h1
        · exact Or.inl h1
        · exact Or.inr (List.mem_cons.2 (Or.inr h1))
      · rw [mapInsert, if_neg hk] at h
        rcases List.mem_cons.1 h with h1 | h1
        · exact Or.inr (List.mem_cons.2 (Or.inl h1))
        · rcases ih h1 with h2 | h2
          · exact Or.inl h2
          · exact Or.inr (List.mem_cons.2 (Or.inr h2))

theorem keysUnique_mapInsert {m : List (String × AssertData)} {k : String}
    {e : AssertData} (hu : keysUnique m) : keysUnique (mapInsert m k e) := by
  induction m with
  | nil => simp [mapInsert, keysUnique]
  | cons kv rest ih =>
      obtain ⟨k0, v0⟩ := kv
      rw [keysUnique, List.map_cons, List.nodup_cons] at hu
      by_cases hk : k0 = k
      · rw [mapInsert, if_pos hk, keysUnique, List.map_cons, List.nodup_cons]
        exact ⟨hk ▸ hu.1, hu.2⟩
      · rw [mapInsert, if_neg hk, keysUnique, List.map_cons, List.nodup_cons]
        refine ⟨fun hmem => ?_, ih hu.2⟩
        rcases mem_keys_mapInsert hmem with h1 | h1
        · exact hk h1
        · exact hu.1 h1

theorem keysUnique_mapDelete {m : List (String × AssertData)} {k : String}
    (hu : keysUnique m) : keysUnique (mapDelete m k) := by
  rw [keysUnique]
  exact ((List.filter_sublist m).map Prod.fst).nodup hu

theorem mapLookup_mapInsert (m : List (String × AssertData)) (k : String)
    (e : AssertData) : mapLookup (mapInsert m k e) k = some e := by
  induction m with
  | nil => simp [mapInsert, mapLookup]
  | cons kv rest ih =>
      obtain ⟨k0, v0⟩ := kv
      by_cases hk : k0 = k
      · rw [mapInsert, if_pos hk, mapLookup, if_pos rfl]
      · rw [mapInsert, if_neg hk, mapLookup, if_neg hk]
        exact ih

theorem mem_mapInsert_self (m : List (String × AssertData)) (k : String)
    (e : AssertData) : (k, e) ∈ mapInsert m k e := by
  induction m with
  | nil => simp [mapInsert]
  | cons kv rest ih =>
      obtain ⟨k0, v0⟩ := kv
      by_cases hk : k0 = k
      · rw [mapInsert, if_pos hk]
        exact List.mem_cons.2 (Or.inl rfl)
      · rw [mapInsert, if_neg hk]
        exact List.mem_cons.2 (Or.inr ih)

theorem mapInsert_mapInsert (m : List (String × AssertData)) (k : String)
    (e e2 : AssertData) : mapInsert (mapInsert m k e) k e2 = mapInsert m k e2 := by
  induction m with
  | nil => simp [mapInsert]
  | cons kv rest ih =>
      obtain ⟨k0, v0⟩ := kv
      by_cases hk : k0 = k
      · rw [mapInsert, if_pos hk, mapInsert, if_pos rfl, mapInsert, if_pos hk]
      · rw [mapInsert, if_neg hk, mapInsert, if_neg hk, ih, mapInsert, if_neg hk]

theorem snapshotPairs_mapDelete_ne (m : List (String × AssertData)) (k : String) :
    ∀ p ∈ snapshotPairs (mapDelete m k), p.1 ≠ k := by
  intro p hp
  rw [snapshotPairs, List.mem_map] at hp
  obtain ⟨kv, hkv, rfl⟩ := hp
  rw [mapDelete, List.mem_filter] at hkv
  simpa using hkv.2

theorem mapDelete_noop {m : List (String × AssertData)} {k : String}
    (h : mapLookup m k = none) : mapDelete m k = m := by
  induction m with
  | nil => rfl
  | cons kv rest ih =>
      obtain ⟨k0, v0⟩ := kv
      rw [mapLookup] at h
      by_cases hk : k0 = k
      · rw [if_pos hk] at h
        exact absurd h (by simp)
      · rw [if_neg hk] at h
        rw [mapDelete, List.filter_cons]
        have hd : decide ((k0, v0).1 ≠ k) = true := by simpa using hk
        rw [if_pos hd]
        rw [mapDelete] at ih
        rw [ih h]

/-!  The reporter's behavior does not depend on the `writer` variable. -/

theorem runAssert_writer_indep : ∀ (fuel : Nat) (st : AssertState) (w : Option Sink)
    (msg : String) (args : List String),
    runAssert fuel { st with writer := w } msg args = runAssert fuel st msg args
  | 0, _, _, _, _ => rfl
  | n + 1, st, w, msg, args => by
      have hnext : ∀ m a, runAssert n { st with writer := w } m a = runAssert n st m a :=
        fun m a => runAssert_writer_indep n st w m a
      simp [runAssert, runFlushesAux_congr hnext st.flushes]

theorem count_exit_flushed (ids : List Nat) :
    (ids.map Event.flushed).count (Event.exited 1) = 0 := by
  rw [List.count_eq_zero]
  simp

theorem filter_flush_map_write : ∀ l : List String,
    (l.map (Event.write Sink.stderr)).filter isFlushEvent = []
  | [] => rfl
  | s :: rest => by
      simp [List.filter_cons, isFlushEvent, filter_flush_map_write rest]

theorem filter_flush_map_flushed : ∀ ids : List Nat,
    (ids.map Event.flushed).filter isFlushEvent = ids.map Event.flushed
  | [] => rfl
  | i :: rest => by
      simp [List.filter_cons, isFlushEvent, filter_flush_map_flushed rest]

/-- In the non-reentrant, even-argument case the report does not panic:
closed form of the full trace ending in `os.Exit(1)`. -/
theorem reportTrace_nopanic (st : AssertState) (msg : String) (args : List String)
    (he : args.length % 2 = 0) :
    reportTrace st msg args =
      ((plainIds st.flushes).map Event.flushed ++
        [Event.write Sink.stderr (renderArgs args), Event.write Sink.stderr "ASSERT"] ++
        (pairLines (["msg", msg, "area", "Assert"] ++ args ++
          registryPairs st.assertData)).1.map (Event.write Sink.stderr) ++
        [Event.stackTrace Sink.stderr, Event.exited 1],
       Outcome.exited 1) := by
  have hnp := slog_nopanic st msg args he
  simp only [reportTrace]
  rw [hnp]
  rfl

/-!  Claim theorems. -/

/-- State of the reentrancy scenario: a plain flush handler registered first,
then a handler whose `Flush()` itself triggers `Assert(false, "boom")`. -/
def stC1 : AssertState :=
  AddAssertFlush (AddAssertFlush initState (AssertFlush.plain 0))
    (AssertFlush.asserting "boom")

/-- C1: the code has no reentrancy latch, so when a flush handler itself
triggers a failure the nested report does NOT skip the flush step: the flush
loop restarts from the first handler on every nested entry.  In the scenario
`stC1` the plain handler has already flushed at least twice within four
recursion levels, and no amount of fuel lets the scenario terminate — the
recursion is unbounded, contradicting the claim that every flush handler
executes at most once and the recursion is bounded. -/
theorem c1_reentrant_flush_recursion_unbounded :
    (∀ fuel msg, (runAssert fuel stC1 msg []).2 = Outcome.fuelOut) ∧
    2 ≤ (runAssert 4 stC1 "m" []).1.count (Event.flushed 0) := by
  constructor
  · intro fuel
    induction fuel with
    | zero => intro msg; rfl
    | succ n ih =>
        intro msg
        have h1 : stC1.flushes = [AssertFlush.plain 0, AssertFlush.asserting "boom"] := rfl
        simp [runAssert, h1, runFlushesAux, ih "boom"]
  · decide

/-- State after `ToWriter` registered a custom writer. -/
def stC2 : AssertState := ToWriter initState (Sink.custom 0)

/-- C2: `ToWriter(w)` stores `w` in the package-level `writer` variable, but
`runAssert` never reads it: the reporter's behavior is identical with and
without a configured writer, every write of the failure report targets
`os.Stderr`, and nothing is ever written to the custom sink — contradicting
the claim that after `ToWriter(w)` reports are written to `w`. -/
theorem c2_report_ignores_configured_writer :
    (∀ fuel st w msg args,
        runAssert fuel (ToWriter st w) msg args = runAssert fuel st msg args) ∧
    stC2.writer = some (Sink.custom 0) ∧
    (∀ e ∈ (Assert 1 stC2 false "m" []).1,
        eventDest e = none ∨ eventDest e = some Sink.stderr) ∧
    (Assert 1 stC2 false "m" []).2 = some (Outcome.exited 1) := by
  refine ⟨?_, rfl, by decide, by decide⟩
  intro fuel st w msg args
  exact runAssert_writer_indep fuel st (some w) msg args

/-- C3 counterexample: `Nil` with a nil item is a satisfied predicate call
(it returns control, second component `none`), yet it writes output: the
unconditional `slog.Info("Nil Check", ...)` line.  So not every satisfied
predicate call has zero side effects. -/
theorem c3_nil_satisfied_call_writes_log :
    (Nil 1 initState GoAny.nilInterface "m" []).2 = none ∧
    (Nil 1 initState GoAny.nilInterface "m" []).1.filter isOutputEvent =
      [Event.slogInfo "Nil Check"] := by
  decide

/-- C3 (amended): a satisfied `Assert`, `NoError` or `NotNil` call produces
no events at all and returns control; a satisfied `Nil` call runs no flush
handler and triggers no failure report, but unconditionally emits exactly one
`slog.Info` log line before returning control. -/
theorem c3_satisfied_predicates_side_effects (fuel : Nat) (st : AssertState)
    (msg : String) (data : List String) (item : GoAny)
    (hitem : notNilViolation item = false) :
    Assert fuel st true msg data = ([], none) ∧
    NoError fuel st none msg data = ([], none) ∧
    NotNil fuel st item msg data = ([], none) ∧
    Nil fuel st GoAny.nilInterface msg data = ([Event.slogInfo "Nil Check"], none) := by
  refine ⟨by simp [Assert], rfl, ?_, by simp [Nil]⟩
  simp [NotNil, hitem]

theorem c3_satisfied_predicates_side_effects_witness :
    notNilViolation (GoAny.wrapped GoKind.otherKind false) = false ∧
    (Assert 1 initState true "m" [] = ([], none) ∧
     NoError 1 initState none "m" [] = ([], none) ∧
     NotNil 1 initState (GoAny.wrapped GoKind.otherKind false) "m" [] = ([], none) ∧
     Nil 1 initState GoAny.nilInterface "m" [] = ([Event.slogInfo "Nil Check"], none)) :=
  ⟨by decide, c3_satisfied_predicates_side_effects 1 initState "m" []
      (GoAny.wrapped GoKind.otherKind false) (by decide)⟩

/-- C4: a non-nil interface wrapping a nil underlying pointer
(`reflect.Kind == Ptr`, `IsNil()`) is treated as nil by `NotNil`: the call is
a violation for every state, message and data (it never returns control), and
in the end-to-end scenario a failure report is emitted (the `ASSERT` header
is written) and the process exits. -/
theorem c4_notNil_deep_nil_pointer_violates (fuel : Nat) (st : AssertState)
    (msg : String) (data : List String) :
    (NotNil fuel st (GoAny.wrapped GoKind.ptr true) msg data).2 ≠ none ∧
    (NotNil 1 initState (GoAny.wrapped GoKind.ptr true) "must not be nil" []).2 =
      some (Outcome.exited 1) ∧
    Event.write Sink.stderr "ASSERT" ∈
      (NotNil 1 initState (GoAny.wrapped GoKind.ptr true) "must not be nil" []).1 := by
  refine ⟨?_, by decide, by decide⟩
  simp [NotNil, notNilViolation]

/-- C10: the deep-nil test of `NotNil` is guarded by
`reflect.ValueOf(item).Kind() == reflect.Ptr`, so a non-nil interface
wrapping a nil value of any non-pointer kind (map, slice, channel, function,
...) is treated as present: the call produces no events and returns control
to the caller. -/
theorem c10_notNil_deep_check_only_pointer_kind (fuel : Nat) (st : AssertState)
    (msg : String) (data : List String) (k : GoKind) (hk : k ≠ GoKind.ptr) :
    NotNil fuel st (GoAny.wrapped k true) msg data = ([], none) := by
  have hv : notNilViolation (GoAny.wrapped k true) = false := by
    cases k
    case ptr => exact absurd rfl hk
    all_goals rfl
  simp [NotNil, hv]

theorem c10_notNil_deep_check_only_pointer_kind_witness :
    (GoKind.mapKind ≠ GoKind.ptr ∧
      NotNil 1 initState (GoAny.wrapped GoKind.mapKind true) "m" [] = ([], none)) ∧
    (GoKind.sliceKind ≠ GoKind.ptr ∧
      NotNil 1 initState (GoAny.wrapped GoKind.sliceKind true) "m" [] = ([], none)) ∧
    (GoKind.chanKind ≠ GoKind.ptr ∧
      NotNil 1 initState (GoAny.wrapped GoKind.chanKind true) "m" [] = ([], none)) ∧
    (GoKind.funcKind ≠ GoKind.ptr ∧
      NotNil 1 initState (GoAny.wrapped GoKind.funcKind true) "m" [] = ([], none)) :=
  ⟨⟨by decide, c10_notNil_deep_check_only_pointer_kind 1 initState "m" [] GoKind.mapKind
      (by decide)⟩,
   ⟨by decide, c10_notNil_deep_check_only_pointer_kind 1 initState "m" [] GoKind.sliceKind
      (by decide)⟩,
   ⟨by decide, c10_notNil_deep_check_only_pointer_kind 1 initState "m" [] GoKind.chanKind
      (by decide)⟩,
   ⟨by decide, c10_notNil_deep_check_only_pointer_kind 1 initState "m" [] GoKind.funcKind
      (by decide)⟩⟩

/-- C5: in every failure report (non-reentrant flush handlers, well-formed
even-length caller data), the written pair lines are exactly the header
pairs, then the caller-supplied pairs in the order supplied, then the
diagnostic-registry pairs: every caller-supplied pair precedes every
registry-snapshot pair. -/
theorem c5_caller_pairs_precede_registry_pairs (n : Nat) (st : AssertState)
    (msg : String) (args : List String) (hp : allPlain st.flushes = true)
    (he : args.length % 2 = 0) :
    (runAssert (n + 1) st msg args).1 =
      (plainIds st.flushes).map Event.flushed ++
      [Event.write Sink.stderr (renderArgs args), Event.write Sink.stderr "ASSERT"] ++
      ((pairLines ["msg", msg, "area", "Assert"]).1 ++ (pairLines args).1 ++
        (pairLines (registryPairs st.assertData)).1).map (Event.write Sink.stderr) ++
      [Event.stackTrace Sink.stderr, Event.exited 1] := by
  rw [runAssert_succ_plain n st msg args hp, reportTrace_nopanic st msg args he]
  have hsplit : (pairLines (["msg", msg, "area", "Assert"] ++ args ++
      registryPairs st.assertData)).1 =
      (pairLines ["msg", msg, "area", "Assert"]).1 ++ (pairLines args).1 ++
        (pairLines (registryPairs st.assertData)).1 := by
    rw [pairLines_append_of_even (["msg", msg, "area", "Assert"] ++ args)
        (registryPairs st.assertData) (by simp; omega)]
    rw [pairLines_append_of_even ["msg", msg, "area", "Assert"] args (by simp)]
  rw [hsplit]

/-- The diagnostic entry and state of the spec's C5 example. -/
def dEntry : AssertData := { Dump := "DUMP" }

def stC5 : AssertState := AddAssertData initState "d" dEntry

theorem c5_caller_pairs_precede_registry_pairs_witness :
    allPlain stC5.flushes = true ∧ (["a", "1"] : List String).length % 2 = 0 ∧
    (runAssert 1 stC5 "m" ["a", "1"]).1 =
      [Event.write Sink.stderr "ARGS: [a 1]",
       Event.write Sink.stderr "ASSERT",
       Event.write Sink.stderr "   msg=m",
       Event.write Sink.stderr "   area=Assert",
       Event.write Sink.stderr "   a=1",
       Event.write Sink.stderr "   d=DUMP",
       Event.stackTrace Sink.stderr, Event.exited 1] :=
  ⟨rfl, rfl,
    (c5_caller_pairs_precede_registry_pairs 0 stC5 "m" ["a", "1"] rfl rfl).trans (by decide)⟩

/-- C6: the diagnostic registry keeps at most one entry per key
(key-uniqueness holds initially and is preserved by both operations),
`AddAssertData` inserts or silently replaces (re-adding under the same key
replaces rather than duplicates), the snapshot after an add contains the
key/dump pair, `RemoveAssertData` removes the key from subsequent snapshots
and is a no-op on an absent key. -/
theorem c6_registry_single_entry_per_key (st : AssertState) (k : String)
    (e e2 : AssertData) (hu : keysUnique st.assertData) :
    keysUnique initState.assertData ∧
    keysUnique (AddAssertData st k e).assertData ∧
    keysUnique (RemoveAssertData st k).assertData ∧
    mapLookup (AddAssertData st k e).assertData k = some e ∧
    (k, e.Dump) ∈ snapshotPairs (AddAssertData st k e).assertData ∧
    (AddAssertData (AddAssertData st k e) k e2).assertData =
      (AddAssertData st k e2).assertData ∧
    (∀ p ∈ snapshotPairs (RemoveAssertData st k).assertData, p.1 ≠ k) ∧
    (mapLookup st.assertData k = none → RemoveAssertData st k = st) := by
  refine ⟨List.nodup_nil, keysUnique_mapInsert hu, keysUnique_mapDelete hu,
    mapLookup_mapInsert _ _ _, ?_, mapInsert_mapInsert _ _ _ _,
    snapshotPairs_mapDelete_ne _ _, ?_⟩
  · rw [snapshotPairs, List.mem_map]
    exact ⟨(k, e), mem_mapInsert_self _ _ _, rfl⟩
  · intro h
    show { st with assertData := mapDelete st.assertData k } = st
    rw [mapDelete_noop h]

theorem c6_registry_single_entry_per_key_witness :
    keysUnique initState.assertData ∧
    (keysUnique initState.assertData ∧
     keysUnique (AddAssertData initState "k" { Dump := "E1" }).assertData ∧
     keysUnique (RemoveAssertData initState "k").assertData ∧
     mapLookup (AddAssertData initState "k" { Dump := "E1" }).assertData "k" =
       some { Dump := "E1" } ∧
     ("k", "E1") ∈ snapshotPairs (AddAssertData initState "k" { Dump := "E1" }).assertData ∧
     (AddAssertData (AddAssertData initState "k" { Dump := "E1" }) "k"
         { Dump := "E2" }).assertData =
       (AddAssertData initState "k" { Dump := "E2" }).assertData ∧
     (∀ p ∈ snapshotPairs (RemoveAssertData initState "k").assertData, p.1 ≠ "k") ∧
     (mapLookup initState.assertData "k" = none →
       RemoveAssertData initState "k" = initState)) :=
  ⟨List.nodup_nil,
   c6_registry_single_entry_per_key initState "k" { Dump := "E1" } { Dump := "E2" }
     List.nodup_nil⟩

/-- C7: in the non-reentrant case (every registered handler plain), one
failure executes the registered flush handlers synchronously before the
report, and the flush events of the whole trace are exactly the registered
handlers' flushes, in registration order, each exactly once. -/
theorem c7_flush_handlers_run_in_order (n : Nat) (st : AssertState) (msg : String)
    (args : List String) (hp : allPlain st.flushes = true) :
    (runAssert (n + 1) st msg args).1.filter isFlushEvent =
      (plainIds st.flushes).map Event.flushed := by
  rw [runAssert_succ_plain n st msg args hp]
  rcases hpl : pairLines ("msg" :: msg :: "area" :: "Assert" ::
      (args ++ registryPairs st.assertData)) with ⟨lines, b⟩
  cases b <;>
    simp [reportTrace, hpl, List.filter_append, List.filter_cons, isFlushEvent,
      filter_flush_map_write, filter_flush_map_flushed]

/-- Registration state for the C7 scenario H1, H2, H3. -/
def stC7 : AssertState :=
  AddAssertFlush (AddAssertFlush (AddAssertFlush initState (AssertFlush.plain 1))
    (AssertFlush.plain 2)) (AssertFlush.plain 3)

theorem c7_flush_handlers_run_in_order_witness :
    allPlain stC7.flushes = true ∧
    (runAssert 1 stC7 "m" []).1.filter isFlushEvent =
      [Event.flushed 1, Event.flushed 2, Event.flushed 3] :=
  ⟨rfl, (c7_flush_handlers_run_in_order 0 stC7 "m" [] rfl).trans (by decide)⟩

/-- C8: for a violated predicate call (non-reentrant flush handlers,
well-formed even-length caller data), exactly one failure report is emitted
(the `ASSERT` header is written exactly once), `os.Exit` is invoked exactly
once with the non-zero status 1, and the call never returns control to its
caller (the second component is `some`, never the normal-return `none`). -/
theorem c8_violation_reports_once_and_exits (n : Nat) (st : AssertState)
    (msg : String) (args : List String) (hp : allPlain st.flushes = true)
    (he : args.length % 2 = 0) :
    (Assert (n + 1) st false msg args).2 = some (Outcome.exited 1) ∧
    (Assert (n + 1) st false msg args).1.count (Event.write Sink.stderr "ASSERT") = 1 ∧
    (Assert (n + 1) st false msg args).1.count (Event.exited 1) = 1 ∧
    (1 : Nat) ≠ 0 := by
  have hA : Assert (n + 1) st false msg args =
      ((runAssert (n + 1) st msg args).1, some (runAssert (n + 1) st msg args).2) := rfl
  rw [hA, runAssert_succ_plain n st msg args hp, reportTrace_nopanic st msg args he]
  refine ⟨rfl, ?_, ?_, by decide⟩
  · rw [List.count_append, List.count_append, List.count_append,
      count_header_flushed, count_header_pairlines]
    simp [List.count_cons, renderArgs_ne_header args,
      Ne.symm (renderArgs_ne_header args)]
  · rw [List.count_append, List.count_append, List.count_append,
      count_exit_flushed, count_exit_pairlines]
    simp [List.count_cons]

theorem c8_violation_reports_once_and_exits_witness :
    allPlain initState.flushes = true ∧ ([] : List String).length % 2 = 0 ∧
    ((Assert 1 initState false "m" []).2 = some (Outcome.exited 1) ∧
     (Assert 1 initState false "m" []).1.count (Event.write Sink.stderr "ASSERT") = 1 ∧
     (Assert 1 initState false "m" []).1.count (Event.exited 1) = 1 ∧
     (1 : Nat) ≠ 0) :=
  ⟨rfl, rfl, c8_violation_reports_once_and_exits 0 initState "m" [] rfl rfl⟩

/-- C9: with an even-length caller argument list the combined `slogValues`
list has even length (header contributes two pairs, each registry entry one
pair), the pair loop hits no out-of-range access and the report runs to
`os.Exit(1)`; with the odd-length list `["a"]` the formatting step itself
fails with an out-of-range access (a runtime panic, no fallback value and no
exit) — the odd case is not defensively validated. -/
theorem c9_pair_loop_bounds (n : Nat) (st : AssertState) (msg : String)
    (args : List String) (hp : allPlain st.flushes = true)
    (he : args.length % 2 = 0) :
    ((["msg", msg, "area", "Assert"] ++ args ++ registryPairs st.assertData).length % 2
      = 0) ∧
    (pairLines (["msg", msg, "area", "Assert"] ++ args ++
      registryPairs st.assertData)).2 = false ∧
    (runAssert (n + 1) st msg args).2 = Outcome.exited 1 ∧
    (Assert 1 initState false "m" ["a"]).2 =
      some (Outcome.panicked "index out of range") ∧
    (Assert 1 initState false "m" ["a"]).1.count (Event.exited 1) = 0 := by
  refine ⟨?_, slog_nopanic st msg args he, ?_, by decide, by decide⟩
  · simp [registryPairs_length]
    omega
  · rw [runAssert_succ_plain n st msg args hp, reportTrace_nopanic st msg args he]

theorem c9_pair_loop_bounds_witness :
    allPlain stC5.flushes = true ∧ (["a", "1"] : List String).length % 2 = 0 ∧
    (((["msg", "m", "area", "Assert"] ++ ["a", "1"] ++
        registryPairs stC5.assertData).length % 2 = 0) ∧
     (pairLines (["msg", "m", "area", "Assert"] ++ ["a", "1"] ++
        registryPairs stC5.assertData)).2 = false ∧
     (runAssert 1 stC5 "m" ["a", "1"]).2 = Outcome.exited 1 ∧
     (Assert 1 initState false "m" ["a"]).2 =
       some (Outcome.panicked "index out of range") ∧
     (Assert 1 initState false "m" ["a"]).1.count (Event.exited 1) = 0) :=
  ⟨rfl, rfl, c9_pair_loop_bounds 0 stC5 "m" ["a", "1"] rfl rfl⟩

end AssertPkg
